import Mathlib

/-!
Shallow embedding of the HealthNexus appointment lifecycle, cost computation,
cache service, cache middleware, database index routine and rate limiter,
translated from the JavaScript source of the repository
(backend/src/models/Appointment.js, backend/src/utils/cache.js,
backend/src/utils/dbOptimization.js and the cache middleware module).

Modelling conventions:
* JavaScript numbers holding money amounts and epoch-millisecond timestamps
  are embedded as `Int` (all arithmetic the code performs on them is exact
  integer or rational arithmetic in the ranges involved).
* Fractional divisions performed by the code (hours-until computation,
  Math.round of a millisecond difference) are embedded exactly over `ℚ`
  resp. via floor arithmetic on `Int`.
* Methods that mutate the Mongoose document are embedded as pure functions
  from the document state to the new document state; a thrown exception is
  an `Option String` error component, produced before any field mutation,
  exactly like the source throws before assigning.
-/

namespace HealthNexus

/-- The status enumeration of the appointment schema. -/
inductive Status
  | scheduled
  | confirmed
  | inProgress
  | completed
  | canceled
  | noShow
  | rescheduled
  deriving DecidableEq, Repr, Fintype

/-- String form of a status (the enum strings of the schema). -/
def Status.str : Status → String
  | .scheduled => "scheduled"
  | .confirmed => "confirmed"
  | .inProgress => "in-progress"
  | .completed => "completed"
  | .canceled => "canceled"
  | .noShow => "no-show"
  | .rescheduled => "rescheduled"

/-- The `validTransitions` table inside `updateStatus` (Appointment.js). -/
def validTransitions : Status → List Status
  | .scheduled => [.confirmed, .canceled, .rescheduled]
  | .confirmed => [.inProgress, .canceled, .noShow, .rescheduled]
  | .inProgress => [.completed, .canceled]
  | .completed => []
  | .canceled => []
  | .noShow => []
  | .rescheduled => [.scheduled]

/-- The transition table as a list of (from, to) pairs, as the spec states it. -/
def allowedTransitionPairs : List (Status × Status) :=
  [(.scheduled, .confirmed), (.scheduled, .canceled), (.scheduled, .rescheduled),
   (.confirmed, .inProgress), (.confirmed, .canceled), (.confirmed, .noShow),
   (.confirmed, .rescheduled),
   (.inProgress, .completed), (.inProgress, .canceled),
   (.rescheduled, .scheduled)]

/-- One element of `cost.additionalCharges`. -/
structure Charge where
  description : String
  amount : Int
  deriving DecidableEq, Repr

/-- The `cost` sub-document of the appointment schema. -/
structure Cost where
  basePrice : Int
  additionalCharges : List Charge
  totalAmount : Int
  insuranceCovered : Int
  patientPayment : Int
  deriving DecidableEq, Repr

/-- The timing fields of the `consultation` sub-document (epoch milliseconds). -/
structure Consultation where
  startTime : Option Int
  endTime : Option Int
  actualDuration : Option Int
  deriving DecidableEq, Repr

/-- The fields of the appointment document that the verified operations touch.
`appointmentDateTime` is epoch milliseconds. -/
structure Appointment where
  appointmentDateTime : Int
  status : Status
  cost : Cost
  consultation : Consultation
  deriving DecidableEq, Repr

/-- `Math.round (num / den)` for integers `num` and positive `den`:
JavaScript rounds half away from zero upward, i.e. floor (x + 1/2). -/
def mathRound (num den : Int) : Int :=
  Int.fdiv (2 * num + den) (2 * den)

/-- The fractional hours-until computation shared by `canBeCanceled` and
`canBeRescheduled`: `(appointmentTime.getTime() - now.getTime()) / (1000*3600)`. -/
def hoursUntil (appointmentDateTime now : Int) : ℚ :=
  ((appointmentDateTime - now : Int) : ℚ) / (1000 * 3600)

/-- `canBeCanceled` (Appointment.js): at least 24 hours out and status
scheduled or confirmed. -/
def canBeCanceled (a : Appointment) (now : Int) : Bool :=
  decide (24 ≤ hoursUntil a.appointmentDateTime now) &&
    (decide (a.status = Status.scheduled) || decide (a.status = Status.confirmed))

/-- `canBeRescheduled` (Appointment.js): at least 2 hours out and status
scheduled or confirmed. -/
def canBeRescheduled (a : Appointment) (now : Int) : Bool :=
  decide (2 ≤ hoursUntil a.appointmentDateTime now) &&
    (decide (a.status = Status.scheduled) || decide (a.status = Status.confirmed))

/-- `calculateTotalCost` (Appointment.js): folds the additional charges onto
the base price, stores the total and the patient payment on the document and
returns the total. -/
def calculateTotalCost (c : Cost) : Cost × Int :=
  let total := c.additionalCharges.foldl (fun t ch => t + ch.amount) c.basePrice
  ({ c with totalAmount := total, patientPayment := total - c.insuranceCovered },
   total)

/-- The Mongoose `isModified` flags consulted by the pre-save hook. -/
structure ModifiedFlags where
  costBasePrice : Bool
  costAdditionalCharges : Bool
  costInsuranceCovered : Bool
  deriving DecidableEq, Repr

/-- The pre-save middleware of Appointment.js: recompute costs whenever one
of the three cost inputs was modified. -/
def preSaveCostHook (a : Appointment) (m : ModifiedFlags) : Appointment :=
  if m.costBasePrice || m.costAdditionalCharges || m.costInsuranceCovered then
    { a with cost := (calculateTotalCost a.cost).1 }
  else a

/-- `updateStatus` (Appointment.js). The source throws before mutating any
field when the requested transition is not in the table; on success it sets
the status and stamps the consultation times (`now` is the epoch-millisecond
current time taken by `new Date()`). The result is the document state paired
with the error message of the thrown exception, if any. The final
`this.save()` does not recompute costs here because no cost field is
modified by this method. -/
def updateStatus (a : Appointment) (newStatus : Status) (now : Int) :
    Appointment × Option String :=
  if (validTransitions a.status).contains newStatus then
    let a1 : Appointment := { a with status := newStatus }
    let a2 : Appointment :=
      if newStatus = Status.inProgress then
        { a1 with consultation := { a1.consultation with startTime := some now } }
      else if newStatus = Status.completed then
        let c1 := { a1.consultation with endTime := some now }
        let c2 :=
          match c1.startTime with
          | some s => { c1 with actualDuration := some (mathRound (now - s) (1000 * 60)) }
          | none => c1
        { a1 with consultation := c2 }
      else a1
    (a2, none)
  else
    (a, some ("Cannot transition from " ++ a.status.str ++ " to " ++ newStatus.str))

/-- The consultation record produced by the completed-transition branch of
`updateStatus`: stamp the end time and derive the duration when a start time
exists. -/
def completedConsultation (c : Consultation) (now : Int) : Consultation :=
  match c.startTime with
  | some s =>
    { c with endTime := some now, actualDuration := some (mathRound (now - s) (1000 * 60)) }
  | none => { c with endTime := some now }

/-- The document produced by a successful transition to in-progress. -/
def inProgressDoc (a : Appointment) (t1 : Int) : Appointment :=
  { a with
      status := Status.inProgress,
      consultation := { a.consultation with startTime := some t1 } }

/-! Example documents used by the witnesses. -/

def emptyCost : Cost :=
  { basePrice := 0, additionalCharges := [], totalAmount := 0,
    insuranceCovered := 0, patientPayment := 0 }

def emptyConsultation : Consultation :=
  { startTime := none, endTime := none, actualDuration := none }

def apptScheduled : Appointment :=
  { appointmentDateTime := 0, status := Status.scheduled, cost := emptyCost,
    consultation := emptyConsultation }

def apptConfirmed : Appointment :=
  { appointmentDateTime := 0, status := Status.confirmed, cost := emptyCost,
    consultation := emptyConsultation }

/-- The concrete cost record of the worked example of the spec:
basePrice 100, one additional charge of 20, insuranceCovered 30. -/
def c2ExampleCost : Cost :=
  { basePrice := 100, additionalCharges := [{ description := "extra", amount := 20 }],
    totalAmount := 0, insuranceCovered := 30, patientPayment := 0 }

/-- All-nonnegative cost inputs on which the code still computes a negative
patient payment: insuranceCovered exceeds the total. -/
def c5CexCost : Cost :=
  { basePrice := 0, additionalCharges := [], totalAmount := 0,
    insuranceCovered := 1, patientPayment := 0 }

/-- Cost inputs satisfying the amended C5 hypotheses. -/
def c5OkCost : Cost :=
  { basePrice := 100, additionalCharges := [{ description := "x", amount := 20 }],
    totalAmount := 0, insuranceCovered := 30, patientPayment := 0 }

/-!
Cache layer: `backend/src/utils/cache.js` (class CacheService) and the
cache middleware module (`cacheMiddleware`, `invalidateCache`,
`rateLimitMiddleware`).
-/

/-- A primitive JSON field value of a cached response payload. -/
inductive JVal
  | jbool (b : Bool)
  | jnum (n : Int)
  | jstr (s : String)
  deriving DecidableEq, Repr

/-- A JSON object payload, ordered fields as in a JavaScript object.
JSON.stringify followed by JSON.parse is a faithful round trip on such
payloads, so serialization into the store is modelled as the identity. -/
abbrev JObj := List (String × JVal)

/-- The bytes JSON.stringify produces for a field value. -/
def JVal.render : JVal → String
  | .jbool true => "true"
  | .jbool false => "false"
  | .jnum n => toString n
  | .jstr s => "\"" ++ s ++ "\""

/-- The bytes JSON.stringify produces for an object payload. -/
def renderObj (o : JObj) : String :=
  "\x7b" ++
    String.intercalate "," (o.map (fun p => "\"" ++ p.1 ++ "\":" ++ p.2.render)) ++
    "\x7d"

/-- JavaScript object field assignment: overwrite in place when the field is
present, append otherwise. -/
def setField (o : JObj) (k : String) (v : JVal) : JObj :=
  if o.any (fun p => p.1 == k) then
    o.map (fun p => if p.1 == k then (k, v) else p)
  else o ++ [(k, v)]

/-- JavaScript spread of `extra` into an object literal that begins with the
fields of `base`: fields of `extra` override same-named fields of `base`. -/
def spreadInto (base extra : JObj) : JObj :=
  extra.foldl (fun acc p => setField acc p.1 p.2) base

/-- The backing key/value store (Redis): keys to serialized payloads. -/
abbrev Store := List (String × JObj)

/-- Connection state of the CacheService: the `isConnected` flag and the
presence of the client object, the two guards every operation checks. -/
structure CacheCtx where
  isConnected : Bool
  hasClient : Bool
  deriving DecidableEq, Repr

/-- `setEx` semantics of the backing store: overwrite or insert. -/
def setEntry (st : Store) (key : String) (v : JObj) : Store :=
  if st.any (fun p => p.1 == key) then
    st.map (fun p => if p.1 == key then (key, v) else p)
  else st ++ [(key, v)]

/-- Fuel-indexed glob matcher: every step consumes at least one character of
the pattern or of the key, so the fuel used below is always sufficient. -/
def globMatchF : Nat → List Char → List Char → Bool
  | 0, _, _ => false
  | _ + 1, [], [] => true
  | _ + 1, [], _ :: _ => false
  | fuel + 1, c :: ps, s =>
    if c = '*' then
      globMatchF fuel ps s ||
        (match s with
         | [] => false
         | _ :: s2 => globMatchF fuel (c :: ps) s2)
    else
      match s with
      | [] => false
      | d :: s2 => c == d && globMatchF fuel ps s2

/-- Redis KEYS glob matching restricted to the `*` wildcard, the only
wildcard the invalidation patterns of this code base use. -/
def globMatch (pattern key : String) : Bool :=
  globMatchF (pattern.length + key.length + 1) pattern.toList key.toList

/-- `CacheService.get`: null when not connected, when there is no client, or
when the store operation throws (`raised`); otherwise the parsed stored
value. The try/catch of the source means the method always returns. -/
def svcGet (ctx : CacheCtx) (raised : Bool) (st : Store) (key : String) :
    Option JObj :=
  if !ctx.isConnected || !ctx.hasClient then none
  else if raised then none
  else st.lookup key

/-- `CacheService.set` (setEx with a TTL): false when unreachable or when the
store operation throws; otherwise writes the entry and returns true. TTL
expiry is not observed inside the verified window. -/
def svcSet (ctx : CacheCtx) (raised : Bool) (st : Store) (key : String)
    (v : JObj) (expiration : Int) : Store × Bool :=
  if !ctx.isConnected || !ctx.hasClient then (st, false)
  else if raised then (st, false)
  else (setEntry st key v, true)

/-- `CacheService.del`. -/
def svcDel (ctx : CacheCtx) (raised : Bool) (st : Store) (key : String) :
    Store × Bool :=
  if !ctx.isConnected || !ctx.hasClient then (st, false)
  else if raised then (st, false)
  else (st.filter (fun p => !(p.1 == key)), true)

/-- `CacheService.keys(pattern)`. -/
def svcKeys (ctx : CacheCtx) (raised : Bool) (st : Store) (pattern : String) :
    List String :=
  if !ctx.isConnected || !ctx.hasClient then []
  else if raised then []
  else (st.map Prod.fst).filter (fun k => globMatch pattern k)

/-- `CacheService.incrementRateLimit`: 1 when unreachable or when the
increment throws; otherwise the incremented counter (incr creates an absent
key at 1). -/
def incrementRateLimit (ctx : CacheCtx) (raised : Bool) (prev : Option Nat) :
    Nat :=
  if !ctx.isConnected || !ctx.hasClient then 1
  else if raised then 1
  else prev.getD 0 + 1

/-- Whether `rateLimitMiddleware` takes the HTTP 429 rejection branch for a
request: the count returned by the increment exceeds `maxRequests`. -/
def rateLimitRejects (ctx : CacheCtx) (raised : Bool) (maxRequests : Nat)
    (prev : Option Nat) : Bool :=
  decide (maxRequests < incrementRateLimit ctx raised prev)

/-- The observable outcome of one request through `cacheMiddleware`. -/
structure MWResult where
  body : JObj
  xCacheHeader : Option String
  handlerRan : Bool
  store : Store
  deriving DecidableEq, Repr

/-- The object literal the hit path responds with, before the cached payload
is spread into it: success true, cached true, a fresh ISO timestamp. -/
def hitBase (nowIso : String) : JObj :=
  [("success", JVal.jbool true), ("cached", JVal.jbool true),
   ("timestamp", JVal.jstr nowIso)]

/-- The `data.success !== false` test of the middleware. -/
def successNotFalse (o : JObj) : Bool :=
  match o.lookup "success" with
  | some (JVal.jbool false) => false
  | _ => true

/-- One request through the `cacheMiddleware` wrapper. Parameters: the
`skipCache` option, the evaluated `condition(req)`, the cache connection
state, whether the get resp. set store operation throws, the computed cache
key, the store contents, the body the wrapped handler would respond with
(an object, hence truthy), its status code, the configured TTL and the
current ISO timestamp. On a hit the handler is skipped and the annotated
cached payload returned; on a miss the handler runs and a successful body is
stored under the key (fire-and-forget, failures ignored). -/
def cacheMiddleware (skipCache cond : Bool) (ctx : CacheCtx)
    (exGet exSet : Bool) (key : String) (st : Store) (handlerBody : JObj)
    (handlerStatus : Nat) (expiration : Int) (nowIso : String) : MWResult :=
  if skipCache || !cond then
    { body := handlerBody, xCacheHeader := none, handlerRan := true, store := st }
  else
    match svcGet ctx exGet st key with
    | some cachedData =>
      { body := spreadInto (hitBase nowIso) cachedData,
        xCacheHeader := some "HIT", handlerRan := false, store := st }
    | none =>
      let st2 :=
        if successNotFalse handlerBody && decide (handlerStatus < 400) then
          (svcSet ctx exSet st key handlerBody expiration).1
        else st
      { body := handlerBody, xCacheHeader := some "MISS", handlerRan := true,
        store := st2 }

/-- The inner loop of `invalidateCache` for one pattern: enumerate
`keys(pattern)` once, then delete each key individually. -/
def invalidateOnePattern (ctx : CacheCtx) (st : Store) (pattern : String) :
    Store :=
  (svcKeys ctx false st pattern).foldl (fun cur k => (svcDel ctx false cur k).1) st

/-- `invalidatePatterns` over a configured pattern list. -/
def invalidatePatternList (ctx : CacheCtx) (st : Store)
    (patterns : List String) : Store :=
  patterns.foldl (invalidateOnePattern ctx) st

/-- The pattern list of `invalidateServiceCache`. -/
def serviceCachePatterns : List String := ["*:services:*", "*:appointments:*"]

/-- `invalidateServiceCache`, run after a successful write response. -/
def invalidateServiceCache (ctx : CacheCtx) (st : Store) : Store :=
  invalidatePatternList ctx st serviceCachePatterns

/-- Concrete connected context for witnesses and counterexamples. -/
def ctxUp : CacheCtx := { isConnected := true, hasClient := true }

/-- Concrete disconnected context (isConnected false). -/
def ctxDown : CacheCtx := { isConnected := false, hasClient := true }

/-- A successful handler body used by the C7 counterexample. -/
def c7Body : JObj := [("success", JVal.jbool true), ("data", JVal.jnum 5)]

/-- The computed cache key of the C7 counterexample request. -/
def c7Key : String := "GET:/api/v1/services:anonymous:"

/-- First request of the C7 counterexample: a read on an empty cache. -/
def c7First : MWResult :=
  cacheMiddleware false true ctxUp false false c7Key [] c7Body 200 300
    "2026-01-01T00:00:00.000Z"

/-- Second, identical request of the C7 counterexample. -/
def c7Second : MWResult :=
  cacheMiddleware false true ctxUp false false c7Key c7First.store c7Body 200 300
    "2026-01-01T00:00:01.000Z"

/-!
Database optimizer: `backend/src/utils/dbOptimization.js`
(`getExistingIndexKeys`, `tryCreateIndex`, `createIndexes`).
Index key patterns are compared as their JSON.stringify strings, exactly as
the source normalizes them.
-/

/-- Is `sub` a prefix of `s` (character lists)? -/
def isPrefixChars : List Char → List Char → Bool
  | [], _ => true
  | _ :: _, [] => false
  | c :: cs, d :: ds => c == d && isPrefixChars cs ds

/-- Does `s` contain `sub` as a contiguous substring (character lists)? -/
def hasSubstring : List Char → List Char → Bool
  | [], sub => sub.isEmpty
  | c :: s, sub => isPrefixChars sub (c :: s) || hasSubstring s sub

/-- The case-insensitive regex test of `tryCreateIndex`. -/
def messageSaysAlreadyExists (msg : String) : Bool :=
  hasSubstring msg.toLower.toList "already exists".toList

/-- The shape of a MongoDB driver error as `tryCreateIndex` inspects it. -/
structure MongoError where
  code : Option Int
  codeName : Option String
  message : String
  deriving DecidableEq, Repr

/-- The condition under which `tryCreateIndex` swallows a creation error:
code 85, codeName IndexOptionsConflict, or an already-exists message. -/
def isBenignIndexConflict (e : MongoError) : Bool :=
  (e.code == some 85) || (e.codeName == some "IndexOptionsConflict") ||
    messageSaysAlreadyExists e.message

/-- `tryCreateIndex` outcome as a function of whether the underlying
creation raised: benign conflicts become no-op successes, anything else is
rethrown. -/
def tryCreateIndexResult (raised : Option MongoError) : Except MongoError Unit :=
  match raised with
  | none => Except.ok ()
  | some e => if isBenignIndexConflict e then Except.ok () else Except.error e

/-- Effect of `tryCreateIndex` on a collection whose index set is the list
of key-pattern strings: creating an index whose key pattern already exists
raises the options-conflict error, which the wrapper swallows, so the set is
unchanged; otherwise the index is created. -/
def tryCreateIndexKeys (cur : List String) (spec : String) : List String :=
  if cur.contains spec then cur else cur ++ [spec]

/-- One desired index inside `createIndexes`: skip when the key pattern is in
the snapshot of existing patterns, otherwise call `tryCreateIndex`. -/
def ensureStep (existing cur : List String) (spec : String) : List String :=
  if existing.contains spec then cur else tryCreateIndexKeys cur spec

/-- The per-collection loop of `createIndexes`: the existing key patterns are
read once, then each desired pattern is ensured against that snapshot. -/
def ensureCollectionIndexes (existing desired : List String) : List String :=
  desired.foldl (ensureStep existing) existing

/-- Desired service indexes of `createIndexes` (key patterns stringified). -/
def serviceDesiredIndexKeys : List String :=
  ["\x7b\"category\":1,\"isActive\":1,\"rating.average\":-1\x7d",
   "\x7b\"price\":1,\"isActive\":1\x7d",
   "\x7b\"isPopular\":1,\"isActive\":1,\"createdAt\":-1\x7d"]

/-- Desired user indexes. -/
def userDesiredIndexKeys : List String :=
  ["\x7b\"profile.phone\":1\x7d",
   "\x7b\"isActive\":1,\"userType\":1\x7d"]

/-- Desired review indexes. -/
def reviewDesiredIndexKeys : List String :=
  ["\x7b\"service\":1,\"rating\":-1,\"createdAt\":-1\x7d",
   "\x7b\"user\":1,\"createdAt\":-1\x7d"]

/-- Desired appointment indexes. -/
def appointmentDesiredIndexKeys : List String :=
  ["\x7b\"user\":1,\"scheduledDate\":-1,\"status\":1\x7d",
   "\x7b\"provider\":1,\"scheduledDate\":1,\"status\":1\x7d",
   "\x7b\"service\":1,\"status\":1,\"scheduledDate\":-1\x7d"]

/-- The index key patterns of the four collections `createIndexes` targets. -/
structure DbIndexState where
  services : List String
  users : List String
  reviews : List String
  appointments : List String
  deriving DecidableEq, Repr

/-- All four collections are free of duplicate key patterns. -/
def DbIndexState.nodups (db : DbIndexState) : Prop :=
  db.services.Nodup ∧ db.users.Nodup ∧ db.reviews.Nodup ∧ db.appointments.Nodup

/-- One full pass of `createIndexes` over the four collections. -/
def createIndexesOnce (db : DbIndexState) : DbIndexState :=
  { services := ensureCollectionIndexes db.services serviceDesiredIndexKeys,
    users := ensureCollectionIndexes db.users userDesiredIndexKeys,
    reviews := ensureCollectionIndexes db.reviews reviewDesiredIndexKeys,
    appointments :=
      ensureCollectionIndexes db.appointments appointmentDesiredIndexKeys }

/-- `createIndexes` with the memoizing `indexCreated` flag of the
DatabaseOptimizer instance: a second call on the same instance returns
immediately. -/
def createIndexes : Bool × DbIndexState → Bool × DbIndexState
  | (flag, db) => if flag then (flag, db) else (true, createIndexesOnce db)

/-- A database with no indexes, for the C9 witness. -/
def emptyDbIndexState : DbIndexState :=
  { services := [], users := [], reviews := [], appointments := [] }

/-- A concrete IndexOptionsConflict error (code 85). -/
def code85Error : MongoError :=
  { code := some 85, codeName := some "IndexOptionsConflict",
    message := "An existing index has the same key" }

/-! Helper lemmas. -/

lemma foldl_charge_amount (l : List Charge) (b : Int) :
    l.foldl (fun t ch => t + ch.amount) b = b + (l.map Charge.amount).sum := by
  induction l generalizing b with
  | nil => simp
  | cons ch tl ih =>
    simp only [List.foldl_cons, List.map_cons, List.sum_cons, ih (b + ch.amount)]
    omega

lemma le_hoursUntil_iff (k : ℚ) (ms : Int) (appt now : Int)
    (hk : k * (1000 * 3600) = (ms : ℚ)) :
    (k ≤ hoursUntil appt now) ↔ (ms ≤ appt - now) := by
  unfold hoursUntil
  rw [le_div_iff₀ (by norm_num : (0 : ℚ) < 1000 * 3600), hk, Int.cast_le]

lemma updateStatus_step (a : Appointment) (t : Status) (now : Int)
    (h : (validTransitions a.status).contains t = true) :
    updateStatus a t now =
      (if t = Status.inProgress then
        { a with status := t,
                 consultation := { a.consultation with startTime := some now } }
      else if t = Status.completed then
        { a with status := t, consultation := completedConsultation a.consultation now }
      else { a with status := t }, none) := by
  unfold updateStatus completedConsultation
  rw [if_pos h]

/-- Claim C1: `updateStatus` realises exactly the transition table of the
spec: a requested status in the table for the current status succeeds and
sets the status to the target; any other request (in particular any request
out of the terminal statuses completed, canceled, no-show) produces the
illegal-transition error and leaves the document unchanged. -/
theorem c1_updateStatus_transition_table (a : Appointment) (t : Status) (now : Int) :
    (∀ f u : Status,
      (validTransitions f).contains u = true ↔ (f, u) ∈ allowedTransitionPairs) ∧
    ((validTransitions a.status).contains t = true →
      (updateStatus a t now).2 = none ∧ (updateStatus a t now).1.status = t) ∧
    ((validTransitions a.status).contains t = false →
      (∃ msg, (updateStatus a t now).2 = some msg) ∧ (updateStatus a t now).1 = a) := by
  refine ⟨by decide, ?_, ?_⟩
  · intro h
    rw [updateStatus_step a t now h]
    refine ⟨rfl, ?_⟩
    by_cases h1 : t = Status.inProgress
    · subst h1; rfl
    · by_cases h2 : t = Status.completed
      · subst h2; rfl
      · rw [if_neg h1, if_neg h2]
  · intro h
    have h2 : ¬((validTransitions a.status).contains t = true) := by rw [h]; simp
    unfold updateStatus
    rw [if_neg h2]
    exact ⟨⟨_, rfl⟩, rfl⟩

/-- Claim C1 witness: from scheduled, the transition to confirmed succeeds
and the transition to completed fails leaving the document untouched. -/
theorem c1_witness :
    ((updateStatus apptScheduled Status.confirmed 0).2 = none ∧
     (updateStatus apptScheduled Status.confirmed 0).1.status = Status.confirmed) ∧
    ((∃ msg, (updateStatus apptScheduled Status.completed 0).2 = some msg) ∧
     (updateStatus apptScheduled Status.completed 0).1 = apptScheduled) :=
  ⟨(c1_updateStatus_transition_table apptScheduled Status.confirmed 0).2.1 (by decide),
   (c1_updateStatus_transition_table apptScheduled Status.completed 0).2.2 (by decide)⟩

/-- Claim C2: `calculateTotalCost` sets totalAmount to basePrice plus the sum
of the additional charge amounts, sets patientPayment to totalAmount minus
insuranceCovered, and returns totalAmount; the worked example yields 120 and
90; and the pre-save hook recomputes exactly when one of the three cost
inputs is flagged modified. -/
theorem c2_calculateTotalCost (a : Appointment) (m : ModifiedFlags) :
    ((calculateTotalCost a.cost).1.totalAmount =
      a.cost.basePrice + (a.cost.additionalCharges.map Charge.amount).sum) ∧
    ((calculateTotalCost a.cost).1.patientPayment =
      (calculateTotalCost a.cost).1.totalAmount - a.cost.insuranceCovered) ∧
    ((calculateTotalCost a.cost).2 = (calculateTotalCost a.cost).1.totalAmount) ∧
    ((calculateTotalCost c2ExampleCost).1.totalAmount = 120 ∧
     (calculateTotalCost c2ExampleCost).1.patientPayment = 90) ∧
    ((m.costBasePrice || m.costAdditionalCharges || m.costInsuranceCovered) = true →
      preSaveCostHook a m = { a with cost := (calculateTotalCost a.cost).1 }) := by
  refine ⟨?_, rfl, rfl, by constructor <;> rfl, ?_⟩
  · simp [calculateTotalCost, foldl_charge_amount]
  · intro h
    simp [preSaveCostHook, h]

/-- Claim C2 witness: with the basePrice flag modified, the pre-save hook
recomputes the cost of the example document. -/
theorem c2_witness :
    ((true || false || false) = true) ∧
    preSaveCostHook { apptScheduled with cost := c2ExampleCost }
        { costBasePrice := true, costAdditionalCharges := false,
          costInsuranceCovered := false } =
      { { apptScheduled with cost := c2ExampleCost } with
        cost := (calculateTotalCost c2ExampleCost).1 } :=
  ⟨rfl,
   (c2_calculateTotalCost { apptScheduled with cost := c2ExampleCost }
     { costBasePrice := true, costAdditionalCharges := false,
       costInsuranceCovered := false }).2.2.2.2 rfl⟩

/-- Claim C3: `canBeCanceled` holds exactly when the status is scheduled or
confirmed and the appointment is at least 24 hours (in milliseconds) away;
`canBeRescheduled` likewise with a 2 hour window. -/
theorem c3_eligibility_windows (a : Appointment) (now : Int) :
    (canBeCanceled a now = true ↔
      ((a.status = Status.scheduled ∨ a.status = Status.confirmed) ∧
        24 * 3600 * 1000 ≤ a.appointmentDateTime - now)) ∧
    (canBeRescheduled a now = true ↔
      ((a.status = Status.scheduled ∨ a.status = Status.confirmed) ∧
        2 * 3600 * 1000 ≤ a.appointmentDateTime - now)) := by
  constructor
  · simp only [canBeCanceled, Bool.and_eq_true, Bool.or_eq_true, decide_eq_true_eq,
      le_hoursUntil_iff 24 86400000 a.appointmentDateTime now (by norm_num)]
    constructor
    · rintro ⟨h1, h2⟩; exact ⟨h2, by omega⟩
    · rintro ⟨h1, h2⟩; exact ⟨by omega, h1⟩
  · simp only [canBeRescheduled, Bool.and_eq_true, Bool.or_eq_true, decide_eq_true_eq,
      le_hoursUntil_iff 2 7200000 a.appointmentDateTime now (by norm_num)]
    constructor
    · rintro ⟨h1, h2⟩; exact ⟨h2, by omega⟩
    · rintro ⟨h1, h2⟩; exact ⟨by omega, h1⟩

/-- Claim C4: a successful transition to in-progress stamps the consultation
start time with the current time; a successful transition to completed stamps
the end time and, when a start time is recorded, sets actualDuration to the
rounded minute difference, leaving actualDuration untouched otherwise; the
two-hop run in-progress then completed 25 minutes later yields 25. -/
theorem c4_consultation_stamps (a : Appointment) (t1 t2 : Int) :
    ((validTransitions a.status).contains Status.inProgress = true →
      (updateStatus a Status.inProgress t1).1.consultation.startTime = some t1) ∧
    ((validTransitions a.status).contains Status.completed = true →
      (updateStatus a Status.completed t2).1.consultation.endTime = some t2 ∧
      (∀ s, a.consultation.startTime = some s →
        (updateStatus a Status.completed t2).1.consultation.actualDuration =
          some (mathRound (t2 - s) (1000 * 60))) ∧
      (a.consultation.startTime = none →
        (updateStatus a Status.completed t2).1.consultation.actualDuration =
          a.consultation.actualDuration)) ∧
    (a.status = Status.confirmed →
      (updateStatus (updateStatus a Status.inProgress t1).1 Status.completed
          (t1 + 25 * 60 * 1000)).1.consultation.actualDuration = some 25) := by
  refine ⟨?_, ?_, ?_⟩
  · intro h
    rw [updateStatus_step a Status.inProgress t1 h]
    rfl
  · intro h
    rw [updateStatus_step a Status.completed t2 h]
    refine ⟨?_, ?_, ?_⟩
    · show (completedConsultation a.consultation t2).endTime = some t2
      unfold completedConsultation
      cases a.consultation.startTime <;> rfl
    · intro s hs
      show (completedConsultation a.consultation t2).actualDuration =
        some (mathRound (t2 - s) (1000 * 60))
      unfold completedConsultation
      rw [hs]
    · intro hs
      show (completedConsultation a.consultation t2).actualDuration =
        a.consultation.actualDuration
      unfold completedConsultation
      rw [hs]
  · intro h
    have h1 : (validTransitions a.status).contains Status.inProgress = true := by
      rw [h]; rfl
    have hstep : (updateStatus a Status.inProgress t1).1 = inProgressDoc a t1 := by
      rw [updateStatus_step a Status.inProgress t1 h1]; rfl
    rw [hstep]
    have h2 : (validTransitions (inProgressDoc a t1).status).contains
        Status.completed = true := rfl
    rw [updateStatus_step _ Status.completed _ h2]
    show some (mathRound (t1 + 25 * 60 * 1000 - t1) (1000 * 60)) = some 25
    have h25 : t1 + 25 * 60 * 1000 - t1 = 25 * 60 * 1000 := by ring
    rw [h25]
    decide

/-- Claim C4 witness: a confirmed appointment taken in-progress at time 1000
records start time 1000, and the 25-minute two-hop run records duration 25. -/
theorem c4_witness :
    (updateStatus apptConfirmed Status.inProgress 1000).1.consultation.startTime =
      some 1000 ∧
    (updateStatus (updateStatus apptConfirmed Status.inProgress 0).1 Status.completed
        (0 + 25 * 60 * 1000)).1.consultation.actualDuration = some 25 :=
  ⟨(c4_consultation_stamps apptConfirmed 1000 0).1 (by decide),
   (c4_consultation_stamps apptConfirmed 0 0).2.2 rfl⟩

/-- Claim C5 counterexample: with basePrice 0, no additional charges and
insuranceCovered 1 (all non-negative), the recomputed patientPayment is
negative, refuting the never-negative part of the claim. -/
theorem c5_counterexample :
    0 ≤ c5CexCost.basePrice ∧
    (∀ ch ∈ c5CexCost.additionalCharges, 0 ≤ ch.amount) ∧
    0 ≤ c5CexCost.insuranceCovered ∧
    (calculateTotalCost c5CexCost).1.patientPayment < 0 := by
  refine ⟨by decide, by simp [c5CexCost], by decide, by decide⟩

/-- Claim C5 (amended): after recomputation patientPayment equals totalAmount
minus insuranceCovered, and it is non-negative provided insuranceCovered does
not exceed the recomputed totalAmount (the validation the spec notes as
unenforced). -/
theorem c5_patientPayment_nonneg (c : Cost)
    (_hb : 0 ≤ c.basePrice) (_hch : ∀ ch ∈ c.additionalCharges, 0 ≤ ch.amount)
    (_hi : 0 ≤ c.insuranceCovered)
    (hle : c.insuranceCovered ≤ (calculateTotalCost c).1.totalAmount) :
    (calculateTotalCost c).1.patientPayment =
      (calculateTotalCost c).1.totalAmount - c.insuranceCovered ∧
    0 ≤ (calculateTotalCost c).1.patientPayment := by
  refine ⟨rfl, ?_⟩
  have h : (calculateTotalCost c).1.patientPayment =
      (calculateTotalCost c).1.totalAmount - c.insuranceCovered := rfl
  omega

/-- Claim C5 witness: the worked example satisfies the hypotheses and its
patient payment is 90, non-negative. -/
theorem c5_witness :
    (0 ≤ c5OkCost.basePrice ∧ (∀ ch ∈ c5OkCost.additionalCharges, 0 ≤ ch.amount) ∧
     0 ≤ c5OkCost.insuranceCovered ∧
     c5OkCost.insuranceCovered ≤ (calculateTotalCost c5OkCost).1.totalAmount) ∧
    ((calculateTotalCost c5OkCost).1.patientPayment =
      (calculateTotalCost c5OkCost).1.totalAmount - c5OkCost.insuranceCovered ∧
     0 ≤ (calculateTotalCost c5OkCost).1.patientPayment) :=
  ⟨⟨by decide, by decide, by decide, by decide⟩,
   c5_patientPayment_nonneg c5OkCost (by decide) (by decide) (by decide) (by decide)⟩


/-! Association-list lemmas for the store model. -/

lemma any_eq_false_of_lookup_none (st : Store) (key : String)
    (h : st.lookup key = none) : st.any (fun p => p.1 == key) = false := by
  induction st with
  | nil => rfl
  | cons p t ih =>
    obtain ⟨k, v⟩ := p
    by_cases hkey : key = k
    · subst hkey; simp [List.lookup] at h
    · have h1 : (key == k) = false := beq_eq_false_iff_ne.mpr hkey
      simp only [List.lookup, h1] at h
      have h2 : (k == key) = false := beq_eq_false_iff_ne.mpr (Ne.symm hkey)
      simp [ih h, h2]

lemma lookup_append_single (st : Store) (key : String) (v : JObj)
    (h : st.lookup key = none) : (st ++ [(key, v)]).lookup key = some v := by
  induction st with
  | nil => simp [List.lookup]
  | cons p t ih =>
    obtain ⟨k, w⟩ := p
    by_cases hkey : key = k
    · subst hkey; simp [List.lookup] at h
    · have h1 : (key == k) = false := beq_eq_false_iff_ne.mpr hkey
      simp only [List.lookup, h1] at h
      simp only [List.cons_append, List.lookup, h1]
      exact ih h

lemma lookup_setEntry_of_none (st : Store) (key : String) (v : JObj)
    (h : st.lookup key = none) : (setEntry st key v).lookup key = some v := by
  have ha := any_eq_false_of_lookup_none st key h
  simp only [setEntry, ha, Bool.false_eq_true, if_false]
  exact lookup_append_single st key v h

lemma lookup_filter_self (st : Store) (key : String) :
    (st.filter (fun p => !(p.1 == key))).lookup key = none := by
  induction st with
  | nil => rfl
  | cons p t ih =>
    obtain ⟨k, v⟩ := p
    by_cases hkey : k = key
    · subst hkey
      simp [List.filter_cons, ih]
    · have h2 : (k == key) = false := beq_eq_false_iff_ne.mpr hkey
      have h3 : (key == k) = false := beq_eq_false_iff_ne.mpr (Ne.symm hkey)
      simp [List.filter_cons, h2, List.lookup, h3, ih]

lemma lookup_filter_none (st : Store) (j : String) (f : String × JObj → Bool)
    (h : st.lookup j = none) : (st.filter f).lookup j = none := by
  induction st with
  | nil => rfl
  | cons p t ih =>
    obtain ⟨k, v⟩ := p
    by_cases hkey : j = k
    · subst hkey; simp [List.lookup] at h
    · have h1 : (j == k) = false := beq_eq_false_iff_ne.mpr hkey
      simp only [List.lookup, h1] at h
      by_cases hf : f (k, v) = true
      · simp [List.filter_cons, hf, List.lookup, h1, ih h]
      · simp [List.filter_cons, hf, ih h]

lemma svcDel_preserves_none (ctx : CacheCtx) (cur : Store) (k j : String)
    (h : cur.lookup j = none) : ((svcDel ctx false cur k).1).lookup j = none := by
  cases hc : ctx.isConnected <;> cases hl : ctx.hasClient <;>
    simp [svcDel, hc, hl, h, lookup_filter_none]

lemma foldl_del_preserves_none (ctx : CacheCtx) (ks : List String) (cur : Store)
    (j : String) (h : cur.lookup j = none) :
    (ks.foldl (fun cur k => (svcDel ctx false cur k).1) cur).lookup j = none := by
  induction ks generalizing cur with
  | nil => exact h
  | cons k t ih => exact ih _ (svcDel_preserves_none ctx cur k j h)

lemma foldl_del_kills (ctx : CacheCtx) (hconn : ctx.isConnected = true)
    (hcl : ctx.hasClient = true) (j : String) :
    ∀ (ks : List String) (cur : Store), j ∈ ks →
      (ks.foldl (fun cur k => (svcDel ctx false cur k).1) cur).lookup j = none := by
  intro ks
  induction ks with
  | nil => intro cur hj; cases hj
  | cons k t ih =>
    intro cur hj
    rcases List.mem_cons.mp hj with rfl | hmem
    · exact foldl_del_preserves_none ctx t _ j
        (by simp [svcDel, hconn, hcl, lookup_filter_self])
    · exact ih _ hmem

lemma lookup_ne_none_mem (st : Store) (j : String)
    (h : ¬ st.lookup j = none) : j ∈ st.map Prod.fst := by
  induction st with
  | nil => exact absurd rfl h
  | cons p t ih =>
    obtain ⟨k, v⟩ := p
    by_cases hkey : j = k
    · simp [hkey]
    · have h1 : (j == k) = false := beq_eq_false_iff_ne.mpr hkey
      simp only [List.lookup, h1] at h
      simp [ih h]

lemma invalidateOne_kills (ctx : CacheCtx) (hconn : ctx.isConnected = true)
    (hcl : ctx.hasClient = true) (st : Store) (p j : String)
    (hmatch : globMatch p j = true) :
    (invalidateOnePattern ctx st p).lookup j = none := by
  unfold invalidateOnePattern
  by_cases h : st.lookup j = none
  · exact foldl_del_preserves_none ctx _ st j h
  · have hmem : j ∈ st.map Prod.fst := lookup_ne_none_mem st j h
    have hks : j ∈ svcKeys ctx false st p := by
      simp [svcKeys, hconn, hcl, List.mem_filter, hmem, hmatch]
    exact foldl_del_kills ctx hconn hcl j _ st hks

lemma invalidateOne_preserves_none (ctx : CacheCtx) (st : Store) (p j : String)
    (h : st.lookup j = none) : (invalidateOnePattern ctx st p).lookup j = none :=
  foldl_del_preserves_none ctx _ st j h

/-- Claim C6: when the backing store is unreachable (not connected, no
client, or the operation throws), get returns absent, set and delete return
failure, and the state is untouched; totality of the embedded functions
reflects that the try/catch of each method prevents any exception from
reaching the caller. -/
theorem c6_best_effort_degradation (ctx : CacheCtx) (ex : Bool) (st : Store)
    (key : String) (v : JObj) (expiration : Int)
    (h : ctx.isConnected = false ∨ ctx.hasClient = false ∨ ex = true) :
    svcGet ctx ex st key = none ∧
    svcSet ctx ex st key v expiration = (st, false) ∧
    svcDel ctx ex st key = (st, false) := by
  rcases h with h | h | h <;> simp [svcGet, svcSet, svcDel, h]

/-- Claim C6 witness: a disconnected context degrades all three operations. -/
theorem c6_witness :
    (ctxDown.isConnected = false) ∧
    (svcGet ctxDown false [] "k" = none ∧
     svcSet ctxDown false [] "k" [] 3600 = ([], false) ∧
     svcDel ctxDown false [] "k" = ([], false)) :=
  ⟨rfl, c6_best_effort_degradation ctxDown false [] "k" [] 3600 (Or.inl rfl)⟩

/-- Claim C7 counterexample: on an empty cache the first read is a miss that
returns the handler body; the identical second read is a hit that skips the
handler, but its payload is not byte-identical to the miss response: the hit
path spreads the cached data into an object that adds cached:true and a
fresh timestamp. -/
theorem c7_counterexample :
    c7First.xCacheHeader = some "MISS" ∧
    c7Second.xCacheHeader = some "HIT" ∧
    c7Second.handlerRan = false ∧
    renderObj c7Second.body ≠ renderObj c7First.body := by
  decide

/-- Claim C7 (amended): under the middleware condition, with the store
reachable, a read on an absent key runs the handler, responds with the
handler body and stores it under the key; the immediately following
identical read is a hit that skips the handler and responds with the cached
payload spread into the hit annotation object (success true, cached true,
fresh timestamp) — all stored fields and values intact, but not
byte-identical to the miss response. -/
theorem c7_read_through (ctx : CacheCtx) (key : String) (st : Store)
    (body : JObj) (status : Nat) (expiration : Int) (t0 t1 : String)
    (hconn : ctx.isConnected = true) (hcl : ctx.hasClient = true)
    (hmiss : st.lookup key = none)
    (hok : successNotFalse body = true) (hst : status < 400) :
    (cacheMiddleware false true ctx false false key st body status expiration t0 =
      { body := body, xCacheHeader := some "MISS", handlerRan := true,
        store := setEntry st key body }) ∧
    (cacheMiddleware false true ctx false false key (setEntry st key body) body
        status expiration t1 =
      { body := spreadInto (hitBase t1) body, xCacheHeader := some "HIT",
        handlerRan := false, store := setEntry st key body }) := by
  have hget1 : svcGet ctx false st key = none := by
    simp [svcGet, hconn, hcl, hmiss]
  have hget2 : svcGet ctx false (setEntry st key body) key = some body := by
    simp [svcGet, hconn, hcl, lookup_setEntry_of_none st key body hmiss]
  constructor
  · simp [cacheMiddleware, hget1, hok, hst, svcSet, hconn, hcl]
  · simp [cacheMiddleware, hget2]

/-- Claim C7 witness: the concrete round trip of the counterexample
satisfies the amended statement. -/
theorem c7_witness :
    (cacheMiddleware false true ctxUp false false c7Key [] c7Body 200 300 "t0" =
      { body := c7Body, xCacheHeader := some "MISS", handlerRan := true,
        store := setEntry [] c7Key c7Body }) ∧
    (cacheMiddleware false true ctxUp false false c7Key (setEntry [] c7Key c7Body)
        c7Body 200 300 "t1" =
      { body := spreadInto (hitBase "t1") c7Body, xCacheHeader := some "HIT",
        handlerRan := false, store := setEntry [] c7Key c7Body }) :=
  c7_read_through ctxUp c7Key [] c7Body 200 300 "t0" "t1" rfl rfl rfl
    (by decide) (by decide)

/-- Claim C8: after `invalidateServiceCache` completes with the store
reachable (it enumerates the keys matching each pattern and deletes each
one), a read under any key matching the services pattern misses. -/
theorem c8_service_invalidation (ctx : CacheCtx) (st : Store) (key : String)
    (hconn : ctx.isConnected = true) (hcl : ctx.hasClient = true)
    (hmatch : globMatch "*:services:*" key = true) :
    svcGet ctx false (invalidateServiceCache ctx st) key = none := by
  have h1 : (invalidateOnePattern ctx st "*:services:*").lookup key = none :=
    invalidateOne_kills ctx hconn hcl st _ key hmatch
  have h2 : (invalidateServiceCache ctx st).lookup key = none := by
    unfold invalidateServiceCache invalidatePatternList serviceCachePatterns
    exact invalidateOne_preserves_none ctx _ _ key h1
  simp [svcGet, hconn, hcl, h2]

/-- Claim C8 witness: a cached service-list key is a miss after the
invalidation runs on a connected store. -/
theorem c8_witness :
    globMatch "*:services:*" "development:services:list" = true ∧
    svcGet ctxUp false
      (invalidateServiceCache ctxUp [("development:services:list", c7Body)])
      "development:services:list" = none :=
  ⟨by decide,
   c8_service_invalidation ctxUp [("development:services:list", c7Body)]
     "development:services:list" rfl rfl (by decide)⟩

/-- Claim C10: with the cache store unreachable (disconnected, no client, or
a throwing increment), `incrementRateLimit` returns 1, so for any positive
configured threshold the middleware never takes the 429 rejection branch,
regardless of the stored request count for the identifier. -/
theorem c10_rate_limit_fails_open (ctx : CacheCtx) (ex : Bool)
    (prev : Option Nat) (maxRequests : Nat)
    (h : ctx.isConnected = false ∨ ctx.hasClient = false ∨ ex = true)
    (hmax : 1 ≤ maxRequests) :
    incrementRateLimit ctx ex prev = 1 ∧
    rateLimitRejects ctx ex maxRequests prev = false := by
  have h1 : incrementRateLimit ctx ex prev = 1 := by
    rcases h with h | h | h <;> simp [incrementRateLimit, h]
  refine ⟨h1, ?_⟩
  simp only [rateLimitRejects, h1, decide_eq_false_iff_not]
  omega

/-- Claim C10 witness: a disconnected store with a huge stored count still
returns 1 and passes the default threshold of 100. -/
theorem c10_witness :
    incrementRateLimit ctxDown false (some 1000000) = 1 ∧
    rateLimitRejects ctxDown false 100 (some 1000000) = false :=
  c10_rate_limit_fails_open ctxDown false (some 1000000) 100 (Or.inl rfl)
    (by decide)


/-! Lemmas about the index-ensure loop. -/

lemma mem_ensureStep (existing cur : List String) (spec x : String)
    (h : x ∈ cur) : x ∈ ensureStep existing cur spec := by
  unfold ensureStep tryCreateIndexKeys
  by_cases h1 : existing.contains spec = true
  · rw [if_pos h1]; exact h
  · rw [if_neg h1]
    by_cases h2 : cur.contains spec = true
    · rw [if_pos h2]; exact h
    · rw [if_neg h2]; exact List.mem_append_left _ h

lemma mem_foldl_ensureStep (existing : List String) (d : List String) :
    ∀ cur x, x ∈ cur → x ∈ d.foldl (ensureStep existing) cur := by
  induction d with
  | nil => intro cur x h; exact h
  | cons spec t ih =>
    intro cur x h
    exact ih _ x (mem_ensureStep existing cur spec x h)

lemma desired_mem_foldl (existing : List String) (d : List String) :
    ∀ cur, (∀ y ∈ existing, y ∈ cur) → ∀ x ∈ d,
      x ∈ d.foldl (ensureStep existing) cur := by
  induction d with
  | nil => intro cur _ x hx; cases hx
  | cons spec t ih =>
    intro cur hsub x hx
    rcases List.mem_cons.mp hx with rfl | hmem
    · rw [List.foldl_cons]
      apply mem_foldl_ensureStep
      unfold ensureStep tryCreateIndexKeys
      by_cases h1 : existing.contains x = true
      · rw [if_pos h1]
        exact hsub x (List.mem_of_elem_eq_true h1)
      · rw [if_neg h1]
        by_cases h2 : cur.contains x = true
        · rw [if_pos h2]; exact List.mem_of_elem_eq_true h2
        · rw [if_neg h2]; exact List.mem_append_right _ (by simp)
    · exact ih _ (fun y hy => mem_ensureStep existing cur spec y (hsub y hy)) x hmem

lemma foldl_ensureStep_id (existing : List String) (d : List String)
    (hall : ∀ x ∈ d, existing.contains x = true) :
    ∀ cur, d.foldl (ensureStep existing) cur = cur := by
  induction d with
  | nil => intro cur; rfl
  | cons spec t ih =>
    intro cur
    have hs : existing.contains spec = true := hall spec (List.mem_cons_self spec t)
    show t.foldl (ensureStep existing) (ensureStep existing cur spec) = cur
    rw [show ensureStep existing cur spec = cur from by
      unfold ensureStep; rw [if_pos hs]]
    exact ih (fun x hx => hall x (List.mem_cons_of_mem _ hx)) cur

lemma ensureCollectionIndexes_idem (existing d : List String) :
    ensureCollectionIndexes (ensureCollectionIndexes existing d) d =
      ensureCollectionIndexes existing d := by
  unfold ensureCollectionIndexes
  have hall : ∀ x ∈ d,
      (d.foldl (ensureStep existing) existing).contains x = true := by
    intro x hx
    exact List.elem_eq_true_of_mem
      (desired_mem_foldl existing d existing (fun y hy => hy) x hx)
  exact foldl_ensureStep_id _ d hall _

lemma mem_foldl_ensureStep_sub (existing : List String) (d : List String) :
    ∀ cur x, x ∈ d.foldl (ensureStep existing) cur → x ∈ cur ∨ x ∈ d := by
  induction d with
  | nil => intro cur x h; exact Or.inl h
  | cons spec t ih =>
    intro cur x h
    rw [List.foldl_cons] at h
    rcases ih (ensureStep existing cur spec) x h with hc | ht
    · unfold ensureStep tryCreateIndexKeys at hc
      by_cases h1 : existing.contains spec = true
      · rw [if_pos h1] at hc; exact Or.inl hc
      · rw [if_neg h1] at hc
        by_cases h2 : cur.contains spec = true
        · rw [if_pos h2] at hc; exact Or.inl hc
        · rw [if_neg h2] at hc
          rcases List.mem_append.mp hc with hl | hr
          · exact Or.inl hl
          · have hxs : x = spec := by simpa using hr
            exact Or.inr (by simp [hxs])
    · exact Or.inr (List.mem_cons_of_mem _ ht)

lemma nodup_ensureStep (existing cur : List String) (spec : String)
    (h : cur.Nodup) : (ensureStep existing cur spec).Nodup := by
  unfold ensureStep tryCreateIndexKeys
  by_cases h1 : existing.contains spec = true
  · rw [if_pos h1]; exact h
  · rw [if_neg h1]
    by_cases h2 : cur.contains spec = true
    · rw [if_pos h2]; exact h
    · rw [if_neg h2]
      have hns : spec ∉ cur := fun hmem => h2 (List.elem_eq_true_of_mem hmem)
      simp [List.nodup_append, h, hns]

lemma nodup_foldl_ensureStep (existing : List String) (d : List String) :
    ∀ cur, cur.Nodup → (d.foldl (ensureStep existing) cur).Nodup := by
  induction d with
  | nil => intro cur h; exact h
  | cons spec t ih =>
    intro cur h
    exact ih _ (nodup_ensureStep existing cur spec h)

/-- Claim C9: the index-ensure routine is idempotent and creates no
duplicates: a second call of `createIndexes` on the optimizer is a no-op
(memo flag), a second full pass over any starting index sets reproduces the
state after the first pass exactly, a pass preserves freedom from duplicate
key patterns, the resulting index set of a collection is exactly the union
of the existing and the desired patterns (only missing ones are created),
and an already-exists or options-conflict error (code 85) during creation is
treated as a benign no-op success. -/
theorem c9_createIndexes_idempotent :
    (∀ s : Bool × DbIndexState, createIndexes (createIndexes s) = createIndexes s) ∧
    (∀ db : DbIndexState,
      createIndexesOnce (createIndexesOnce db) = createIndexesOnce db) ∧
    (∀ db : DbIndexState, db.nodups → (createIndexesOnce db).nodups) ∧
    (∀ existing desired : List String, ∀ x,
      x ∈ ensureCollectionIndexes existing desired ↔ (x ∈ existing ∨ x ∈ desired)) ∧
    (∀ e : MongoError, isBenignIndexConflict e = true →
      tryCreateIndexResult (some e) = Except.ok ()) := by
  refine ⟨?_, ?_, ?_, ?_, ?_⟩
  · rintro ⟨flag, db⟩
    cases flag <;> simp [createIndexes]
  · intro db
    unfold createIndexesOnce
    simp only [ensureCollectionIndexes_idem]
  · rintro db ⟨h1, h2, h3, h4⟩
    exact ⟨nodup_foldl_ensureStep _ _ _ h1, nodup_foldl_ensureStep _ _ _ h2,
      nodup_foldl_ensureStep _ _ _ h3, nodup_foldl_ensureStep _ _ _ h4⟩
  · intro existing desired x
    constructor
    · exact mem_foldl_ensureStep_sub existing desired existing x
    · rintro (hx | hx)
      · exact mem_foldl_ensureStep existing desired existing x hx
      · exact desired_mem_foldl existing desired existing (fun y hy => hy) x hx
  · intro e he
    simp [tryCreateIndexResult, he]

/-- Claim C9 witness: two runs from an empty index state coincide, the
result has no duplicates, and a concrete code-85 error is swallowed. -/
theorem c9_witness :
    (createIndexes (createIndexes (false, emptyDbIndexState)) =
      createIndexes (false, emptyDbIndexState)) ∧
    (createIndexesOnce emptyDbIndexState).nodups ∧
    tryCreateIndexResult (some code85Error) = Except.ok () :=
  ⟨c9_createIndexes_idempotent.1 (false, emptyDbIndexState),
   c9_createIndexes_idempotent.2.2.1 emptyDbIndexState
     ⟨List.nodup_nil, List.nodup_nil, List.nodup_nil, List.nodup_nil⟩,
   c9_createIndexes_idempotent.2.2.2.2 code85Error (by decide)⟩

end HealthNexus
